import Mathlib

/-!
Shallow embedding of the signal-to-order pipeline of `app.py`
(class `HyperliquidRealBot`): webhook validation, account/price retrieval,
position sizing, order submission and result reporting.

Remote I/O is modelled by explicit outcome parameters: each HTTP request the
code makes is represented by a value describing what the venue returned
(a parsed body, a non-200 status code, or a transport exception), and every
pipeline function additionally returns the ordered list of network calls it
performed, so that claims about "no network call is made" and "exactly one
order is submitted" are statable.  Numbers are exact rationals; Python float
`round(x, 4)` is modelled as round-half-to-even at 4 decimal places over
rationals.  Result dictionaries are records keeping the fields the claims
inspect (`status`, `message`, `closed_positions`, order side/size).
-/

namespace HyperliquidBot

/-- Outcome of one HTTP query against the venue "info" endpoint, as the code
observes it: `ok a` is a 200 response whose body parsed to `a`;
`httpError n` is a response with status code `n ≠ 200`; `exn s` is a
transport exception (timeout, connection error) with message `s`. -/
inductive FetchOutcome (α : Type) where
  | ok : α → FetchOutcome α
  | httpError : Nat → FetchOutcome α
  | exn : String → FetchOutcome α
deriving DecidableEq

/-- Parsed body of a 200 `clearinghouseState` response: the
`marginSummary.accountValue` balance and the raw `assetPositions` list as
pairs (coin, signed size `szi`).  Missing JSON fields default to `0` / `[]`
in the source before this point. -/
structure ClearinghouseState where
  accountValue : ℚ
  assetPositions : List (String × ℚ)
deriving DecidableEq

/-- One entry of the `positions` list built by `get_account_info`. -/
structure Position where
  symbol : String
  size : ℚ
  side : String
deriving DecidableEq

/-- The dictionary returned by `get_account_info`. -/
structure AccountInfo where
  balance : ℚ
  positions : List Position
  account_connected : Bool
deriving DecidableEq

/-- `HyperliquidRealBot.get_account_info` (app.py lines 108-160): on a 200
response it reports the balance and the ETH positions whose absolute size
exceeds 0.0001, marking the account connected; on a non-200 response or a
transport exception it returns balance 0, an empty position list and
`account_connected = False`. -/
def get_account_info (fetch : FetchOutcome ClearinghouseState) : AccountInfo :=
  match fetch with
  | .ok st =>
      { balance := st.accountValue
        positions := st.assetPositions.filterMap (fun cz =>
          if cz.1 = "ETH" ∧ (0.0001 : ℚ) < |cz.2| then
            some { symbol := "ETH", size := cz.2
                   side := if (0 : ℚ) < cz.2 then "long" else "short" }
          else none)
        account_connected := true }
  | .httpError _ => { balance := 0, positions := [], account_connected := false }
  | .exn _ => { balance := 0, positions := [], account_connected := false }

/-- `HyperliquidRealBot.get_eth_price` (app.py lines 84-106): the parsed ETH
mid on a 200 response containing the key, `0` on any failure. -/
def get_eth_price (fetch : FetchOutcome ℚ) : ℚ :=
  match fetch with
  | .ok p => p
  | .httpError _ => 0
  | .exn _ => 0

/-- Round-half-to-even to an integer, the tie-breaking rule of Python
`round`. -/
def round_half_even (x : ℚ) : ℤ :=
  if x - ⌊x⌋ < 1/2 then ⌊x⌋
  else if 1/2 < x - ⌊x⌋ then ⌊x⌋ + 1
  else if ⌊x⌋ % 2 = 0 then ⌊x⌋ else ⌊x⌋ + 1

/-- Python `round(x, 4)` over exact rationals. -/
def roundTo4 (x : ℚ) : ℚ := (round_half_even (x * 10000) : ℚ) / 10000

/-- `HyperliquidRealBot.calculate_position_size` (app.py lines 317-337):
returns 0 when balance or price is nonpositive, otherwise rounds
`min(balance * 0.8, max_position_usd) / eth_price` to 4 decimal places. -/
def calculate_position_size (max_position_usd balance eth_price : ℚ) : ℚ :=
  if balance ≤ 0 ∨ eth_price ≤ 0 then 0
  else
    let max_from_balance := balance * 0.8
    let max_position_value := min max_from_balance max_position_usd
    roundTo4 (max_position_value / eth_price)

/-- Outcome of one POST to the venue "exchange" endpoint: a response with a
status code and raw body text, or a transport exception. -/
inductive HttpOutcome where
  | resp : Nat → String → HttpOutcome
  | exn : String → HttpOutcome
deriving DecidableEq

/-- The nonce `int(time.time() * 1000)` computed inside `place_market_order`
(app.py line 214), as a function of the wall-clock reading `t` in seconds. -/
def order_nonce (t : ℚ) : ℤ := ⌊t * 1000⌋

/-- One network call of the pipeline, in the order performed: a price fetch,
an account-state fetch, or an order submission carrying the order side, size
and nonce. -/
inductive NetCall where
  | priceFetch : NetCall
  | accountFetch : NetCall
  | submitOrder : Bool → ℚ → ℤ → NetCall
deriving DecidableEq

/-- The result dictionary of `place_market_order`, keeping the fields the
claims inspect. -/
structure OrderResult where
  status : String
  message : String
  side : Option String := none
  size : Option ℚ := none
deriving DecidableEq

/-- `HyperliquidRealBot.place_market_order` (app.py lines 208-277).  `t` is
the wall clock read for the nonce, `resp` the venue reaction to the
submission.  Python `if not self.eth_asset_id` is true both for `None` and
for the integer `0`, so both abort before any submission; otherwise exactly
one signed order is posted, and a 200 response yields a success result, a
non-200 response an error result quoting the status code and raw body text,
a transport exception an error result quoting the exception. -/
def place_market_order (eth_asset_id : Option Nat) (t : ℚ) (resp : HttpOutcome)
    (is_buy : Bool) (size : ℚ) : OrderResult × List NetCall :=
  match eth_asset_id with
  | none => ({ status := "error", message := "ETH asset ID not found" }, [])
  | some 0 => ({ status := "error", message := "ETH asset ID not found" }, [])
  | some _ =>
    let nonce := order_nonce t
    match resp with
    | .resp code text =>
        if code = 200 then
          ({ status := "success"
             message := "REAL " ++ (if is_buy then "BUY" else "SELL") ++ " order placed"
             side := some (if is_buy then "buy" else "sell")
             size := some size },
           [NetCall.submitOrder is_buy size nonce])
        else
          ({ status := "error"
             message := "Order failed: " ++ toString code ++ " - " ++ text
             size := some size },
           [NetCall.submitOrder is_buy size nonce])
    | .exn e =>
        ({ status := "error", message := "Order error: " ++ e },
         [NetCall.submitOrder is_buy size nonce])

/-- One entry of the `closed_positions` list built by `close_all_positions`. -/
structure ClosedEntry where
  position : Position
  close_result : OrderResult
deriving DecidableEq

/-- The result dictionary returned to the webhook caller; `closed_positions`
is present only on the `close` path. -/
structure BotResult where
  status : String
  message : String
  closed_positions : Option (List ClosedEntry) := none
deriving DecidableEq

/-- The process environment of one pipeline run: the configuration fixed at
startup (`eth_asset_id`, `max_position_usd`, `webhook_secret`) and the
behaviour of the remote venue during the run (outcome of the price fetch,
outcome of the account fetch, and for the i-th order submission the wall
clock read for its nonce and the venue reaction). -/
structure BotEnv where
  eth_asset_id : Option Nat
  max_position_usd : ℚ
  webhook_secret : String
  price_fetch : FetchOutcome ℚ
  account_fetch : FetchOutcome ClearinghouseState
  order_clock : Nat → ℚ
  order_http : Nat → HttpOutcome

/-- The per-position loop of `close_all_positions` (app.py lines 294-302):
for each position submit an offsetting market order (`abs` of the size,
buy iff the position is short), collecting the per-position results and the
submissions performed.  `i` indexes the submissions into the environment
streams. -/
def close_loop (aid : Option Nat) (clock : Nat → ℚ) (http : Nat → HttpOutcome) :
    List Position → Nat → List ClosedEntry × List NetCall
  | [], _ => ([], [])
  | p :: rest, i =>
      let size := |p.size|
      let is_buy := p.side == "short"
      let r := place_market_order aid (clock i) (http i) is_buy size
      let tail := close_loop aid clock http rest (i + 1)
      ({ position := p, close_result := r.1 } :: tail.1, r.2 ++ tail.2)

/-- `HyperliquidRealBot.close_all_positions` (app.py lines 279-315): fetch the
account info; if the position list is empty return success with an empty
closed list; otherwise close every position and return success with the
per-position results. -/
def close_all_positions (env : BotEnv) : BotResult × List NetCall :=
  let account_info := get_account_info env.account_fetch
  let positions := account_info.positions
  if positions.isEmpty then
    ({ status := "success", message := "No positions to close"
       closed_positions := some [] },
     [NetCall.accountFetch])
  else
    let res := close_loop env.eth_asset_id env.order_clock env.order_http positions 0
    ({ status := "success"
       message := "Closed " ++ toString res.1.length ++ " positions"
       closed_positions := some res.1 },
     NetCall.accountFetch :: res.2)

/-- `HyperliquidRealBot.process_signal` (app.py lines 339-373): `close`
delegates to `close_all_positions`; any other action fetches the price
(error if it is nonpositive), fetches the account (error if not connected),
checks the $5 balance minimum, computes the position size (error if
nonpositive), and only then places one market order, buying iff the action
is `buy`. -/
def process_signal (env : BotEnv) (action : String) : BotResult × List NetCall :=
  if action = "close" then
    close_all_positions env
  else
    let eth_price := get_eth_price env.price_fetch
    if eth_price ≤ 0 then
      ({ status := "error", message := "Invalid ETH price: " ++ toString eth_price },
       [NetCall.priceFetch])
    else
      let account_info := get_account_info env.account_fetch
      if !account_info.account_connected then
        ({ status := "error", message := "Account not connected" },
         [NetCall.priceFetch, NetCall.accountFetch])
      else
        let balance := account_info.balance
        if balance < 5 then
          ({ status := "error", message := "Insufficient balance: $" ++ toString balance },
           [NetCall.priceFetch, NetCall.accountFetch])
        else
          let position_size := calculate_position_size env.max_position_usd balance eth_price
          if position_size ≤ 0 then
            ({ status := "error", message := "Invalid position size: " ++ toString position_size },
             [NetCall.priceFetch, NetCall.accountFetch])
          else
            let is_buy := action == "buy"
            let r := place_market_order env.eth_asset_id (env.order_clock 0) (env.order_http 0)
                       is_buy position_size
            ({ status := r.1.status, message := r.1.message },
             [NetCall.priceFetch, NetCall.accountFetch] ++ r.2)

/-- Python `str.lower()`, acting characterwise on the underlying list. -/
def str_lower (s : String) : String := String.mk (s.data.map Char.toLower)

/-- An inbound webhook payload as the code inspects it: whether the `action`
and `passphrase` fields are present and their string values. -/
structure WebhookData where
  action : Option String
  passphrase : Option String
deriving DecidableEq

/-- `HyperliquidRealBot.process_webhook` (app.py lines 375-395): reject when
`action` is missing, when `passphrase` is missing, when the passphrase
differs from the configured secret, or when the lowercased action is not one
of buy/sell/close — all before any network call; otherwise delegate to
`process_signal`. -/
def process_webhook (env : BotEnv) (data : WebhookData) : BotResult × List NetCall :=
  match data.action with
  | none => ({ status := "error", message := "Missing action field" }, [])
  | some act =>
    match data.passphrase with
    | none => ({ status := "error", message := "Missing passphrase field" }, [])
    | some pass =>
      if pass ≠ env.webhook_secret then
        ({ status := "error", message := "Invalid passphrase" }, [])
      else
        let action := str_lower act
        if ¬ (action = "buy" ∨ action = "sell" ∨ action = "close") then
          ({ status := "error", message := "Invalid action: " ++ action }, [])
        else
          process_signal env action

/-- The four preconditions `process_signal` checks, in order, before placing
a buy or sell order: positive fetched price, connected account, balance at
least the $5 minimum, positive computed size. -/
def buy_sell_ok (env : BotEnv) : Prop :=
  0 < get_eth_price env.price_fetch ∧
  (get_account_info env.account_fetch).account_connected = true ∧
  5 ≤ (get_account_info env.account_fetch).balance ∧
  0 < calculate_position_size env.max_position_usd
        (get_account_info env.account_fetch).balance (get_eth_price env.price_fetch)

/-- The nonces of the order submissions in a network-call trace. -/
def trace_nonces : List NetCall → List ℤ
  | [] => []
  | NetCall.submitOrder _ _ n :: rest => n :: trace_nonces rest
  | _ :: rest => trace_nonces rest

/-- A baseline healthy environment used to instantiate theorems on concrete
inputs: asset id resolved, default $50 cap, ETH at $2000, a connected
account holding $100 and no open ETH position, venue acknowledging orders. -/
def base_env : BotEnv where
  eth_asset_id := some 1
  max_position_usd := 50
  webhook_secret := "tv_secret"
  price_fetch := .ok 2000
  account_fetch := .ok { accountValue := 100, assetPositions := [] }
  order_clock := fun _ => 0
  order_http := fun _ => .resp 200 "ok"

/-- The baseline environment with one long ETH position of size 3 on the
account and a venue that rejects every order submission with HTTP 500. -/
def c10_env : BotEnv :=
  { base_env with
    account_fetch := FetchOutcome.ok { accountValue := 100, assetPositions := [("ETH", 3)] }
    order_http := fun _ => HttpOutcome.resp 500 "server error" }

/-! ## Helper lemmas -/

/-- Round-half-to-even of a nonnegative rational is nonnegative. -/
theorem round_half_even_nonneg (x : ℚ) (hx : 0 ≤ x) : 0 ≤ round_half_even x := by
  have h0 : (0 : ℤ) ≤ ⌊x⌋ := Int.floor_nonneg.mpr hx
  unfold round_half_even
  split_ifs <;> omega

/-- Round-half-to-even of a rational strictly above one half is at least one. -/
theorem round_half_even_one_le (x : ℚ) (hx : 1/2 < x) : 1 ≤ round_half_even x := by
  have hx0 : (0 : ℚ) ≤ x := le_of_lt (lt_trans (by norm_num) hx)
  have h0 : (0 : ℤ) ≤ ⌊x⌋ := Int.floor_nonneg.mpr hx0
  unfold round_half_even
  split_ifs with h1 h2 h3
  · -- fractional part below one half, so the floor itself is at least one
    rcases eq_or_lt_of_le h0 with h | h
    · exfalso
      have : x < 1/2 := by
        have := h1
        rw [← h] at this
        push_cast at this
        linarith
      linarith
    · omega
  · omega
  · -- exact tie with an even floor: the floor cannot be zero since x > 1/2
    rcases eq_or_lt_of_le h0 with h | h
    · exfalso
      have hfr : x - ⌊x⌋ = 1/2 := le_antisymm (not_lt.mp h2) (not_lt.mp h1)
      rw [← h] at hfr
      push_cast at hfr
      linarith
    · omega
  · omega

/-- The 4-decimal rounding of a nonnegative rational is nonnegative. -/
theorem roundTo4_nonneg (x : ℚ) (hx : 0 ≤ x) : 0 ≤ roundTo4 x := by
  unfold roundTo4
  have : (0 : ℤ) ≤ round_half_even (x * 10000) :=
    round_half_even_nonneg _ (by positivity)
  positivity

/-- The 4-decimal rounding is positive strictly above half an ulp. -/
theorem roundTo4_pos (x : ℚ) (hx : 1/20000 < x) : 0 < roundTo4 x := by
  unfold roundTo4
  have h1 : (1 : ℤ) ≤ round_half_even (x * 10000) :=
    round_half_even_one_le _ (by linarith)
  have h1q : (1 : ℚ) ≤ (round_half_even (x * 10000) : ℚ) := by exact_mod_cast h1
  positivity

/-- `close_loop` produces one closed entry per position. -/
theorem close_loop_length (aid : Option Nat) (clock : Nat → ℚ) (http : Nat → HttpOutcome) :
    ∀ (ps : List Position) (i : Nat),
      (close_loop aid clock http ps i).1.length = ps.length
  | [], _ => rfl
  | p :: rest, i => by
      simp [close_loop, close_loop_length aid clock http rest (i + 1)]

/-- Evaluation of `get_account_info` on a 200 body with one long ETH
position. -/
theorem acc_single_long (S bal : ℚ) (hS : (0.0001 : ℚ) < S) :
    get_account_info (FetchOutcome.ok { accountValue := bal, assetPositions := [("ETH", S)] })
      = { balance := bal,
          positions := [{ symbol := "ETH", size := S, side := "long" }],
          account_connected := true } := by
  have hS0 : (0 : ℚ) < S := lt_trans (by norm_num) hS
  simp only [get_account_info, List.filterMap_cons, List.filterMap_nil, true_and]
  rw [abs_of_pos hS0, if_pos hS, if_pos hS0]

/-- Evaluation of `get_account_info` on a 200 body with one short ETH
position. -/
theorem acc_single_short (S bal : ℚ) (hS : (0.0001 : ℚ) < S) :
    get_account_info (FetchOutcome.ok { accountValue := bal, assetPositions := [("ETH", -S)] })
      = { balance := bal,
          positions := [{ symbol := "ETH", size := -S, side := "short" }],
          account_connected := true } := by
  have hS0 : (0 : ℚ) < S := lt_trans (by norm_num) hS
  simp only [get_account_info, List.filterMap_cons, List.filterMap_nil, true_and]
  rw [abs_neg, abs_of_pos hS0, if_pos hS, if_neg (by linarith : ¬ (0 : ℚ) < -S)]

/-- Every order submission in the trace of one `place_market_order` call at
wall-clock reading `t` carries the nonce `order_nonce t`. -/
theorem trace_nonces_place (aid : Option Nat) (t : ℚ) (resp : HttpOutcome)
    (b : Bool) (s : ℚ) :
    ∀ n ∈ trace_nonces (place_market_order aid t resp b s).2, n = order_nonce t := by
  intro n hn
  match aid with
  | none => simp [place_market_order, trace_nonces] at hn
  | some 0 => simp [place_market_order, trace_nonces] at hn
  | some (k + 1) =>
      cases resp with
      | resp c tx =>
          simp only [place_market_order] at hn
          by_cases hc : c = 200
          · rw [if_pos hc] at hn
            simp only [trace_nonces, List.mem_singleton] at hn
            exact hn
          · rw [if_neg hc] at hn
            simp only [trace_nonces, List.mem_singleton] at hn
            exact hn
      | exn e =>
          simp only [place_market_order, trace_nonces, List.mem_singleton] at hn
          exact hn

/-- The nonce derived from the wall clock is monotone in the clock. -/
theorem order_nonce_mono (t1 t2 : ℚ) (h : t1 ≤ t2) :
    order_nonce t1 ≤ order_nonce t2 :=
  Int.floor_mono (mul_le_mul_of_nonneg_right h (by norm_num))

/-- The nonce strictly increases across a full millisecond of wall clock. -/
theorem order_nonce_strict (t1 t2 : ℚ) (h : t1 + 1/1000 ≤ t2) :
    order_nonce t1 < order_nonce t2 := by
  have h1 : t1 * 1000 + 1 ≤ t2 * 1000 := by linarith
  have h2 : ⌊t1 * 1000⌋ + 1 ≤ ⌊t2 * 1000⌋ := by
    rw [← Int.floor_add_one]
    exact Int.floor_mono h1
  unfold order_nonce
  omega

/-! ## Claims -/

/-- Claim C3: whenever `balance ≤ 0` or `eth_price ≤ 0` the sizing routine
returns 0 as a normal value (the guard on app.py line 320). -/
theorem c3_nonpositive_inputs_size_zero (maxUsd balance eth_price : ℚ)
    (h : balance ≤ 0 ∨ eth_price ≤ 0) :
    calculate_position_size maxUsd balance eth_price = 0 := by
  unfold calculate_position_size
  rw [if_pos h]

/-- Witness for C3 at balance = -1, price = 2000. -/
theorem c3_witness :
    ((-1 : ℚ) ≤ 0 ∨ (2000 : ℚ) ≤ 0) ∧ calculate_position_size 50 (-1) 2000 = 0 :=
  ⟨Or.inl (by norm_num),
   c3_nonpositive_inputs_size_zero 50 (-1) 2000 (Or.inl (by norm_num))⟩

/-- Claim C2, counterexample: balance = 0.001 > 0 and price = 2000 > 0, yet
the computed size is 0, refuting `0 < size` for every positive balance and
price: `min(0.001 * 0.8, 50) / 2000 = 0.0000004` rounds to 0 at 4 decimal
places. -/
theorem c2_counterexample :
    (0 : ℚ) < 1/1000 ∧ (0 : ℚ) < 2000 ∧ (0 : ℚ) < 50 ∧
    calculate_position_size 50 (1/1000) 2000 = 0 := by
  refine ⟨by norm_num, by norm_num, by norm_num, ?_⟩
  norm_num [calculate_position_size, roundTo4, round_half_even]

/-- Claim C2, amended: for balance > 0, price > 0 and a positive configured
cap, the computed size equals `round(min(balance * 0.8, maxUsd) / price, 4)`,
hence `0 ≤ size ≤` that rounded bound, with `0 < size` guaranteed whenever
the unrounded quotient exceeds half an ulp (0.00005); at price = 2000,
balance = 100, maxUsd = 50 the size is exactly 0.025. -/
theorem c2_amended_size_bounds (maxUsd balance eth_price : ℚ)
    (hb : 0 < balance) (hp : 0 < eth_price) (hm : 0 < maxUsd) :
    calculate_position_size maxUsd balance eth_price
        = roundTo4 (min (balance * 0.8) maxUsd / eth_price)
    ∧ 0 ≤ calculate_position_size maxUsd balance eth_price
    ∧ (1/20000 < min (balance * 0.8) maxUsd / eth_price →
        0 < calculate_position_size maxUsd balance eth_price)
    ∧ calculate_position_size 50 100 2000 = 0.025 := by
  have hcond : ¬ (balance ≤ 0 ∨ eth_price ≤ 0) := by
    push_neg
    exact ⟨hb, hp⟩
  have heq : calculate_position_size maxUsd balance eth_price
      = roundTo4 (min (balance * 0.8) maxUsd / eth_price) := by
    unfold calculate_position_size
    rw [if_neg hcond]
  have hq : 0 ≤ min (balance * 0.8) maxUsd / eth_price := by
    have h08 : 0 < balance * 0.8 := by positivity
    exact le_of_lt (div_pos (lt_min h08 hm) hp)
  refine ⟨heq, ?_, ?_, ?_⟩
  · rw [heq]
    exact roundTo4_nonneg _ hq
  · intro hgt
    rw [heq]
    exact roundTo4_pos _ hgt
  · norm_num [calculate_position_size, roundTo4, round_half_even]

/-- Witness for the amended C2 at balance = 100, price = 2000, maxUsd = 50. -/
theorem c2_amended_witness :
    (0 : ℚ) < 100 ∧ (0 : ℚ) < 2000 ∧ (0 : ℚ) < 50 ∧
    (calculate_position_size 50 100 2000
        = roundTo4 (min ((100 : ℚ) * 0.8) 50 / 2000)
      ∧ 0 ≤ calculate_position_size 50 100 2000
      ∧ (1/20000 < min ((100 : ℚ) * 0.8) 50 / 2000 →
          0 < calculate_position_size 50 100 2000)
      ∧ calculate_position_size 50 100 2000 = 0.025) :=
  ⟨by norm_num, by norm_num, by norm_num,
   c2_amended_size_bounds 50 100 2000 (by norm_num) (by norm_num) (by norm_num)⟩

/-- Claim C1, exhibit of the divergence: with the account-state fetch failing
(HTTP 500), a `buy` signal aborts with an error after the price and account
fetches, as the claim states — but a `close` signal returns a success result
("No positions to close", empty closed list): `close_all_positions` never
consults the `account_connected` flag that `get_account_info` sets to false
on a failed fetch, so the failure is indistinguishable from a flat account.
Zero orders are submitted in both cases. -/
theorem c1_close_succeeds_despite_account_fetch_failure :
    process_signal { base_env with account_fetch := FetchOutcome.httpError 500 } "close"
      = ({ status := "success", message := "No positions to close",
           closed_positions := some [] },
         [NetCall.accountFetch])
    ∧ (process_signal { base_env with account_fetch := FetchOutcome.httpError 500 } "buy").1.status
        = "error"
    ∧ (process_signal { base_env with account_fetch := FetchOutcome.httpError 500 } "buy").2
        = [NetCall.priceFetch, NetCall.accountFetch] :=
  ⟨rfl, rfl, rfl⟩

/-- Claim C4: a payload missing `action`, missing `passphrase`, or carrying a
passphrase that differs (string inequality is case-sensitive) from the
configured secret is rejected with an error result and an empty network
trace — no price fetch, no account fetch, no order submission. -/
theorem c4_reject_before_any_network_call (env : BotEnv) (data : WebhookData)
    (h : data.action = none ∨ data.passphrase = none ∨
         ∃ p, data.passphrase = some p ∧ p ≠ env.webhook_secret) :
    (process_webhook env data).1.status = "error"
    ∧ (process_webhook env data).2 = [] := by
  obtain ⟨oa, op⟩ := data
  rcases h with h | h | ⟨p, hp, hne⟩
  · simp only at h
    subst h
    exact ⟨rfl, rfl⟩
  · simp only at h
    subst h
    cases oa with
    | none => exact ⟨rfl, rfl⟩
    | some a => exact ⟨rfl, rfl⟩
  · simp only at hp
    subst hp
    cases oa with
    | none => exact ⟨rfl, rfl⟩
    | some a =>
        simp only [process_webhook]
        rw [if_pos hne]
        exact ⟨rfl, rfl⟩

/-- Witness for C4: a payload with a wrong passphrase against the baseline
environment. -/
theorem c4_witness :
    (({ action := some "buy", passphrase := some "wrong" } : WebhookData).action = none ∨
     ({ action := some "buy", passphrase := some "wrong" } : WebhookData).passphrase = none ∨
     ∃ p, ({ action := some "buy", passphrase := some "wrong" } : WebhookData).passphrase = some p
        ∧ p ≠ base_env.webhook_secret)
    ∧ (process_webhook base_env { action := some "buy", passphrase := some "wrong" }).1.status
        = "error"
    ∧ (process_webhook base_env { action := some "buy", passphrase := some "wrong" }).2 = [] := by
  have h : ∃ p, (some "wrong" : Option String) = some p ∧ p ≠ base_env.webhook_secret :=
    ⟨"wrong", rfl, by simp [base_env]⟩
  exact ⟨Or.inr (Or.inr h),
         c4_reject_before_any_network_call base_env
           { action := some "buy", passphrase := some "wrong" } (Or.inr (Or.inr h))⟩

/-- Claim C6: a `close` signal against a successfully fetched account state
with zero open positions returns success with an empty closed-positions
list, having performed only the account fetch — zero order submissions. -/
theorem c6_close_empty_positions_trivial_success (env : BotEnv) (st : ClearinghouseState)
    (_hf : env.account_fetch = FetchOutcome.ok st)
    (hpos : (get_account_info env.account_fetch).positions = []) :
    process_signal env "close"
      = ({ status := "success", message := "No positions to close",
           closed_positions := some [] },
         [NetCall.accountFetch]) := by
  simp only [process_signal, if_pos rfl, close_all_positions, hpos]
  rfl

/-- Witness for C6: the baseline environment holds a connected account with
no open ETH position. -/
theorem c6_witness :
    (base_env.account_fetch = FetchOutcome.ok { accountValue := 100, assetPositions := [] }
     ∧ (get_account_info base_env.account_fetch).positions = [])
    ∧ process_signal base_env "close"
        = ({ status := "success", message := "No positions to close",
             closed_positions := some [] },
           [NetCall.accountFetch]) :=
  ⟨⟨rfl, rfl⟩,
   c6_close_empty_positions_trivial_success base_env
     { accountValue := 100, assetPositions := [] } rfl rfl⟩

/-- Claim C7: with the asset id resolved (nonzero — Python `if not
self.eth_asset_id` also rejects 0), closing an account whose sole position
is a long of size S submits exactly one sell order of size S, and closing
one whose sole position is a short of size S submits exactly one buy order
of size S, whatever the venue replies. -/
theorem c7_close_single_position_opposite_order (env : BotEnv) (S bal : ℚ) (a : Nat)
    (ha : env.eth_asset_id = some a) (ha0 : a ≠ 0) (hS : (0.0001 : ℚ) < S) :
    (close_all_positions
        { env with account_fetch :=
            FetchOutcome.ok { accountValue := bal, assetPositions := [("ETH", S)] } }).2
      = [NetCall.accountFetch,
         NetCall.submitOrder false S (order_nonce (env.order_clock 0))]
    ∧ (close_all_positions
        { env with account_fetch :=
            FetchOutcome.ok { accountValue := bal, assetPositions := [("ETH", -S)] } }).2
      = [NetCall.accountFetch,
         NetCall.submitOrder true S (order_nonce (env.order_clock 0))] := by
  have hS0 : (0 : ℚ) < S := lt_trans (by norm_num) hS
  obtain ⟨k, rfl⟩ : ∃ k, a = k + 1 := ⟨a - 1, by omega⟩
  constructor
  · simp only [close_all_positions, acc_single_long S bal hS]
    simp only [List.isEmpty_cons, Bool.false_eq_true, if_false, close_loop, ha,
      place_market_order]
    rw [abs_of_pos hS0]
    cases h : env.order_http 0 with
    | resp code text => by_cases hc : code = 200 <;> simp [hc]
    | exn e => simp
  · simp only [close_all_positions, acc_single_short S bal hS]
    simp only [List.isEmpty_cons, Bool.false_eq_true, if_false, close_loop, ha,
      place_market_order]
    rw [abs_neg, abs_of_pos hS0]
    cases h : env.order_http 0 with
    | resp code text => by_cases hc : code = 200 <;> simp [hc]
    | exn e => simp

/-- Witness for C7 at S = 1, balance = 100 in the baseline environment. -/
theorem c7_witness :
    (base_env.eth_asset_id = some 1 ∧ (1 : Nat) ≠ 0 ∧ (0.0001 : ℚ) < 1) ∧
    ((close_all_positions
        { base_env with account_fetch :=
            FetchOutcome.ok { accountValue := 100, assetPositions := [("ETH", 1)] } }).2
       = [NetCall.accountFetch,
          NetCall.submitOrder false 1 (order_nonce (base_env.order_clock 0))]
     ∧ (close_all_positions
        { base_env with account_fetch :=
            FetchOutcome.ok { accountValue := 100, assetPositions := [("ETH", -1)] } }).2
       = [NetCall.accountFetch,
          NetCall.submitOrder true 1 (order_nonce (base_env.order_clock 0))]) :=
  ⟨⟨rfl, by norm_num, by norm_num⟩,
   c7_close_single_position_opposite_order base_env 1 100 1 rfl (by norm_num) (by norm_num)⟩

/-- Claim C8, counterexample: two submissions issued 0.5 ms apart — the
second strictly later in time — receive the same nonce 0, because
`int(time.time() * 1000)` is constant within a millisecond; this refutes
strict nonce growth for submissions in immediate succession. -/
theorem c8_counterexample :
    (0 : ℚ) < 1/2000
    ∧ (place_market_order (some 1) 0 (HttpOutcome.resp 200 "ok") true 1).2
        = [NetCall.submitOrder true 1 0]
    ∧ (place_market_order (some 1) (1/2000) (HttpOutcome.resp 200 "ok") true 1).2
        = [NetCall.submitOrder true 1 0] := by
  refine ⟨by norm_num, ?_, ?_⟩ <;>
    norm_num [place_market_order, order_nonce]

/-- Claim C8, amended: nonces derived from the wall clock are monotone —
an order submitted at a later or equal clock reading never carries a
smaller nonce, and carries a strictly greater one as soon as the later
submission happens at least one millisecond after the earlier. -/
theorem c8_amended_nonce_monotone (t1 t2 : ℚ) (a : Nat)
    (r1 r2 : HttpOutcome) (b1 b2 : Bool) (s1 s2 : ℚ) :
    (t1 ≤ t2 →
      ∀ n1 ∈ trace_nonces (place_market_order (some a) t1 r1 b1 s1).2,
      ∀ n2 ∈ trace_nonces (place_market_order (some a) t2 r2 b2 s2).2,
        n1 ≤ n2)
    ∧ (t1 + 1/1000 ≤ t2 →
      ∀ n1 ∈ trace_nonces (place_market_order (some a) t1 r1 b1 s1).2,
      ∀ n2 ∈ trace_nonces (place_market_order (some a) t2 r2 b2 s2).2,
        n1 < n2) := by
  constructor
  · intro h n1 h1 n2 h2
    rw [trace_nonces_place (some a) t1 r1 b1 s1 n1 h1,
        trace_nonces_place (some a) t2 r2 b2 s2 n2 h2]
    exact order_nonce_mono t1 t2 h
  · intro h n1 h1 n2 h2
    rw [trace_nonces_place (some a) t1 r1 b1 s1 n1 h1,
        trace_nonces_place (some a) t2 r2 b2 s2 n2 h2]
    exact order_nonce_strict t1 t2 h

/-- Witness for the amended C8 at clock readings 0 s and 1 s. -/
theorem c8_amended_witness :
    ((0 : ℚ) ≤ 1 →
      ∀ n1 ∈ trace_nonces (place_market_order (some 1) 0 (HttpOutcome.resp 200 "a") true 1).2,
      ∀ n2 ∈ trace_nonces (place_market_order (some 1) 1 (HttpOutcome.resp 200 "b") false 2).2,
        n1 ≤ n2)
    ∧ ((0 : ℚ) + 1/1000 ≤ 1 →
      ∀ n1 ∈ trace_nonces (place_market_order (some 1) 0 (HttpOutcome.resp 200 "a") true 1).2,
      ∀ n2 ∈ trace_nonces (place_market_order (some 1) 1 (HttpOutcome.resp 200 "b") false 2).2,
        n1 < n2) :=
  c8_amended_nonce_monotone 0 1 1 (HttpOutcome.resp 200 "a") (HttpOutcome.resp 200 "b")
    true false 1 2

/-- Claim C9: when the exchange endpoint answers an order submission with a
non-200 status, the pipeline returns a result with status `error` whose
message is the literal `Order failed:` line carrying the status code and
the raw response text — so the raw text is a suffix of the message — and
no exception escapes (the embedding is a total function). -/
theorem c9_venue_rejection_surfaces_raw_text (a : Nat) (ha : a ≠ 0) (t : ℚ)
    (code : Nat) (text : String) (hc : code ≠ 200) (is_buy : Bool) (size : ℚ) :
    (place_market_order (some a) t (HttpOutcome.resp code text) is_buy size).1.status
        = "error"
    ∧ (place_market_order (some a) t (HttpOutcome.resp code text) is_buy size).1.message
        = "Order failed: " ++ toString code ++ " - " ++ text
    ∧ ∃ pre,
        (place_market_order (some a) t (HttpOutcome.resp code text) is_buy size).1.message
          = pre ++ text := by
  obtain ⟨k, rfl⟩ : ∃ k, a = k + 1 := ⟨a - 1, by omega⟩
  simp only [place_market_order]
  rw [if_neg hc]
  exact ⟨rfl, rfl, ⟨"Order failed: " ++ toString code ++ " - ", rfl⟩⟩

/-- Witness for C9 at status code 422 with body "Insufficient margin". -/
theorem c9_witness :
    ((1 : Nat) ≠ 0 ∧ (422 : Nat) ≠ 200)
    ∧ ((place_market_order (some 1) 0 (HttpOutcome.resp 422 "Insufficient margin") true 1).1.status
        = "error"
      ∧ (place_market_order (some 1) 0 (HttpOutcome.resp 422 "Insufficient margin") true 1).1.message
        = "Order failed: " ++ toString (422 : Nat) ++ " - " ++ "Insufficient margin"
      ∧ ∃ pre,
          (place_market_order (some 1) 0 (HttpOutcome.resp 422 "Insufficient margin") true 1).1.message
            = pre ++ "Insufficient margin") :=
  ⟨⟨by norm_num, by norm_num⟩,
   c9_venue_rejection_surfaces_raw_text 1 (by norm_num) 0 422 "Insufficient margin"
     (by norm_num) true 1⟩

/-- Claim C10: a `close` run over a fetched account state with at least one
open position always reports top-level status `success`, with the message
counting the positions and the per-position outcomes — whatever they are,
since the venue reactions `env.order_http` are arbitrary here — recorded
only inside the `closed_positions` list, one entry per position. -/
theorem c10_close_top_level_success (env : BotEnv) (st : ClearinghouseState)
    (_hf : env.account_fetch = FetchOutcome.ok st)
    (hne : (get_account_info env.account_fetch).positions ≠ []) :
    (close_all_positions env).1.status = "success"
    ∧ (close_all_positions env).1.message
        = "Closed " ++ toString (get_account_info env.account_fetch).positions.length
            ++ " positions"
    ∧ (close_all_positions env).1.closed_positions
        = some (close_loop env.eth_asset_id env.order_clock env.order_http
            (get_account_info env.account_fetch).positions 0).1
    ∧ (close_loop env.eth_asset_id env.order_clock env.order_http
          (get_account_info env.account_fetch).positions 0).1.length
        = (get_account_info env.account_fetch).positions.length := by
  obtain ⟨p, rest, hps⟩ := List.exists_cons_of_ne_nil hne
  have hlen := close_loop_length env.eth_asset_id env.order_clock env.order_http
    (get_account_info env.account_fetch).positions 0
  have hemp : ((get_account_info env.account_fetch).positions).isEmpty = false := by
    rw [hps]
    rfl
  refine ⟨?_, ?_, ?_, hlen⟩ <;>
    simp only [close_all_positions, hemp, Bool.false_eq_true, if_false, hlen]

/-- Witness for C10: one long ETH position of size 3, with the venue
rejecting the offsetting order (HTTP 500) — the top-level status is still
success. -/
theorem c10_witness :
    (c10_env.account_fetch
        = FetchOutcome.ok { accountValue := 100, assetPositions := [("ETH", 3)] }
     ∧ (get_account_info c10_env.account_fetch).positions ≠ [])
    ∧ ((close_all_positions c10_env).1.status = "success"
      ∧ (close_all_positions c10_env).1.message
          = "Closed " ++ toString (get_account_info c10_env.account_fetch).positions.length
              ++ " positions"
      ∧ (close_all_positions c10_env).1.closed_positions
          = some (close_loop c10_env.eth_asset_id c10_env.order_clock c10_env.order_http
              (get_account_info c10_env.account_fetch).positions 0).1
      ∧ (close_loop c10_env.eth_asset_id c10_env.order_clock c10_env.order_http
            (get_account_info c10_env.account_fetch).positions 0).1.length
          = (get_account_info c10_env.account_fetch).positions.length) :=
  ⟨⟨rfl, by norm_num [c10_env, base_env, get_account_info, List.filterMap_cons]⟩,
   c10_close_top_level_success c10_env
     { accountValue := 100, assetPositions := [("ETH", 3)] } rfl
     (by norm_num [c10_env, base_env, get_account_info, List.filterMap_cons])⟩

/-- Claim C5: for a `buy` or `sell` signal, any order submission in the
trace is preceded, in the same run, by the price fetch and the account
fetch, and implies all four preconditions of `buy_sell_ok` (positive price,
connected account, balance at least $5, positive size); conversely when any
precondition fails the result has status `error` and the trace contains no
order submission. -/
theorem c5_preconditions_gate_submission (env : BotEnv) (action : String)
    (ha : action = "buy" ∨ action = "sell") :
    (∀ b s n, NetCall.submitOrder b s n ∈ (process_signal env action).2 →
        buy_sell_ok env ∧
        (process_signal env action).2
          = [NetCall.priceFetch, NetCall.accountFetch, NetCall.submitOrder b s n])
    ∧ (¬ buy_sell_ok env →
        (process_signal env action).1.status = "error" ∧
        ∀ b s n, NetCall.submitOrder b s n ∉ (process_signal env action).2) := by
  rcases ha with rfl | rfl <;>
  · unfold process_signal
    simp only [String.reduceEq, reduceIte]
    by_cases h1 : get_eth_price env.price_fetch ≤ 0
    · rw [if_pos h1]
      refine ⟨?_, ?_⟩
      · intro b s n hmem
        simp at hmem
      · intro _
        refine ⟨by trivial, ?_⟩
        intro b s n hmem
        simp at hmem
    · rw [if_neg h1]
      cases hb : (get_account_info env.account_fetch).account_connected with
      | false =>
          simp only [hb, Bool.not_false, if_true]
          refine ⟨?_, ?_⟩
          · intro b s n hmem
            simp at hmem
          · intro _
            refine ⟨by trivial, ?_⟩
            intro b s n hmem
            simp at hmem
      | true =>
          simp only [hb, Bool.not_true, Bool.false_eq_true, if_false]
          by_cases h3 : (get_account_info env.account_fetch).balance < 5
          · rw [if_pos h3]
            refine ⟨?_, ?_⟩
            · intro b s n hmem
              simp at hmem
            · intro _
              refine ⟨by trivial, ?_⟩
              intro b s n hmem
              simp at hmem
          · rw [if_neg h3]
            by_cases h4 : calculate_position_size env.max_position_usd
                (get_account_info env.account_fetch).balance
                (get_eth_price env.price_fetch) ≤ 0
            · rw [if_pos h4]
              refine ⟨?_, ?_⟩
              · intro b s n hmem
                simp at hmem
              · intro _
                refine ⟨by trivial, ?_⟩
                intro b s n hmem
                simp at hmem
            · rw [if_neg h4]
              have hok : buy_sell_ok env :=
                ⟨not_le.mp h1, hb, not_lt.mp h3, not_le.mp h4⟩
              cases haid : env.eth_asset_id with
              | none =>
                  simp only [place_market_order]
                  refine ⟨?_, ?_⟩
                  · intro b s n hmem
                    simp at hmem
                  · intro hnot
                    exact absurd hok hnot
              | some k =>
                  cases k with
                  | zero =>
                      simp only [place_market_order]
                      refine ⟨?_, ?_⟩
                      · intro b s n hmem
                        simp at hmem
                      · intro hnot
                        exact absurd hok hnot
                  | succ m =>
                      cases hh : env.order_http 0 with
                      | resp c tx =>
                          by_cases hc : c = 200
                          · simp only [place_market_order, hc, reduceIte]
                            refine ⟨?_, ?_⟩
                            · intro b s n hmem
                              simp at hmem
                              obtain ⟨rfl, rfl, rfl⟩ := hmem
                              exact ⟨hok, by trivial⟩
                            · intro hnot
                              exact absurd hok hnot
                          · simp only [place_market_order]
                            rw [if_neg hc]
                            refine ⟨?_, ?_⟩
                            · intro b s n hmem
                              simp at hmem
                              obtain ⟨rfl, rfl, rfl⟩ := hmem
                              exact ⟨hok, by trivial⟩
                            · intro hnot
                              exact absurd hok hnot
                      | exn e =>
                          simp only [place_market_order]
                          refine ⟨?_, ?_⟩
                          · intro b s n hmem
                            simp at hmem
                            obtain ⟨rfl, rfl, rfl⟩ := hmem
                            exact ⟨hok, by trivial⟩
                          · intro hnot
                            exact absurd hok hnot

/-- Witness for C5: the baseline environment satisfies every precondition,
instantiated at the `buy` action. -/
theorem c5_witness :
    ("buy" = "buy" ∨ "buy" = "sell")
    ∧ ((∀ b s n, NetCall.submitOrder b s n ∈ (process_signal base_env "buy").2 →
          buy_sell_ok base_env ∧
          (process_signal base_env "buy").2
            = [NetCall.priceFetch, NetCall.accountFetch, NetCall.submitOrder b s n])
      ∧ (¬ buy_sell_ok base_env →
          (process_signal base_env "buy").1.status = "error" ∧
          ∀ b s n, NetCall.submitOrder b s n ∉ (process_signal base_env "buy").2)) :=
  ⟨Or.inl rfl, c5_preconditions_gate_submission base_env "buy" (Or.inl rfl)⟩

end HyperliquidBot
